import Mathlib

/-!
Verification of the maxconnections middleware (package maxconnections).

The repository holds two implementations of the same admission-control
middleware:

* `maxconnections.go` — `ServeHTTP` with the fast-path select, the
  queue select, timer arming, and the three-way select inline;
* a second variant (in the unnamed source part) — the admission logic
  factored into `enqueueRunning`, with releases performed by `defer`,
  and `ServeHTTP` invoking the overload handler whenever
  `enqueueRunning` reports failure.

Both are embedded here twice:

* per request, as trace functions `serveA` / `serveB` from a finite
  environment (the resolutions of the selects) to the ordered list of
  channel, timer and handler events the request performs;
* globally, as a small-step transition system `Step` over the shared
  channel occupancies and the program counters of any number of
  concurrent requests, used for the reachable-state invariants.
-/

namespace MaxConn

/-- Outcome of one request at the middleware boundary: the delegate handler
was invoked, the overload handler was invoked, or no response was produced
(the cancelled-while-queued case of `maxconnections.go`). -/
inductive Outcome where
  | handled
  | overloaded
  | noResponse
deriving DecidableEq, Repr

/-- Events a single request performs, in program order: sends to and
receives from the `running` and `queue` channels (permit acquire/release),
timer arming, stopping and firing, and the two handler invocation
boundaries. -/
inductive Ev where
  | acqRunning
  | relRunning
  | acqQueue
  | relQueue
  | armTimer
  | stopTimer
  | timerFire
  | invokeHandler
  | invokeOverload
deriving DecidableEq, Repr

/-- Resolution of the three-way select of a queued request: the send to
`running` became ready first, the timeout channel fired first, or the
request context was cancelled first. -/
inductive RaceW where
  | slot
  | timeout
  | cancel
deriving DecidableEq, Repr

/-- Nondeterminism visible to one request: whether the non-blocking send on
the `running` channel was ready at the first select, whether the
non-blocking send on the `queue` channel was ready at the second select,
and which event wins the three-way select while queued. -/
structure Env where
  fastFree : Bool
  queueFree : Bool
  race : RaceW
deriving DecidableEq, Repr

/-- Side conditions Go channel semantics imposes on an environment: a send
on a buffered channel with no waiting receiver is ready only when the
capacity is positive, and the timeout case of the select can fire only when
a timer was armed — with `MaxWaitInQueue == 0` the select reads from
`openTimeChannel` (receiving from which blocks forever) in
`maxconnections.go`, and from a nil channel in the variant. -/
def Env.feasible (maxRunning maxInQueue maxWait : Nat) (e : Env) : Prop :=
  (e.fastFree = true → 0 < maxRunning) ∧
  (e.queueFree = true → 0 < maxInQueue) ∧
  (e.race = RaceW.timeout → 0 < maxWait)

instance (a b c : Nat) (e : Env) : Decidable (e.feasible a b c) :=
  inferInstanceAs (Decidable (_ ∧ _ ∧ _))

/-- Trace and outcome of `Middleware.ServeHTTP` of `maxconnections.go` for
one request under the select resolutions `e`, given `MaxWaitInQueue`
(`maxWait`). Mirrors the source: the fast-path select (send to `running`,
deferred receive around the handler); the queue select with `default`
invoking the overload handler; timer arming when `MaxWaitInQueue > 0`; the
three-way select where the `running` case receives from `queue` and stops
the timer before invoking the handler, the timeout case receives from
`queue` and invokes the overload handler, and the context-done case
receives from `queue`, stops the timer and returns without producing any
response. -/
def serveA (maxWait : Nat) (e : Env) : List Ev × Outcome :=
  if e.fastFree then
    ([Ev.acqRunning, Ev.invokeHandler, Ev.relRunning], Outcome.handled)
  else if e.queueFree = false then
    ([Ev.invokeOverload], Outcome.overloaded)
  else
    let arm : List Ev := if 0 < maxWait then [Ev.armTimer] else []
    match e.race with
    | RaceW.slot =>
        ([Ev.acqQueue] ++ arm ++ [Ev.acqRunning, Ev.relQueue] ++
          (if 0 < maxWait then [Ev.stopTimer] else []) ++
          [Ev.invokeHandler, Ev.relRunning], Outcome.handled)
    | RaceW.timeout =>
        ([Ev.acqQueue] ++ arm ++
          [Ev.timerFire, Ev.relQueue, Ev.invokeOverload], Outcome.overloaded)
    | RaceW.cancel =>
        ([Ev.acqQueue] ++ arm ++ [Ev.relQueue] ++
          (if 0 < maxWait then [Ev.stopTimer] else []), Outcome.noResponse)

/-- Trace of `Middleware.enqueueRunning` of the variant implementation,
with the boolean it returns. Mirrors the source: fast-path select; queue
select registering `defer func() { <-m.queue }()`; timer arming with
`defer timer.Stop()` when `MaxWaitInQueue > 0`; the three-way select
returning true only in the `running` case. The deferred calls run in LIFO
order on return: first `timer.Stop()` (also after the timer has fired),
then the receive from `queue`. -/
def enqueueRunning (maxWait : Nat) (e : Env) : List Ev × Bool :=
  if e.fastFree then
    ([Ev.acqRunning], true)
  else if e.queueFree = false then
    ([], false)
  else
    let arm : List Ev := if 0 < maxWait then [Ev.armTimer] else []
    let unwind : List Ev :=
      (if 0 < maxWait then [Ev.stopTimer] else []) ++ [Ev.relQueue]
    match e.race with
    | RaceW.slot => ([Ev.acqQueue] ++ arm ++ [Ev.acqRunning] ++ unwind, true)
    | RaceW.timeout => ([Ev.acqQueue] ++ arm ++ [Ev.timerFire] ++ unwind, false)
    | RaceW.cancel => ([Ev.acqQueue] ++ arm ++ unwind, false)

/-- Trace and outcome of `Middleware.ServeHTTP` of the variant
implementation: on `enqueueRunning` success, a deferred receive from
`running` around the handler invocation; on failure — whatever its cause —
`m.OverloadHandler.ServeHTTP(w, r)` is invoked. -/
def serveB (maxWait : Nat) (e : Env) : List Ev × Outcome :=
  let q := enqueueRunning maxWait e
  if q.2 then
    (q.1 ++ [Ev.invokeHandler, Ev.relRunning], Outcome.handled)
  else
    (q.1 ++ [Ev.invokeOverload], Outcome.overloaded)

/-- Capacity semantics of the Go runtime for `make(chan struct{}, n)`: a
negative buffer size panics (modelled as `none`), otherwise the call yields
a channel with that buffer capacity. -/
def goMakeChan (n : Int) : Option Nat :=
  if n < 0 then none else some n.toNat

/-- Channel capacities a `Middleware` value carries after construction. -/
structure Config where
  maxRunning : Nat
  maxInQueue : Nat
deriving DecidableEq, Repr

/-- Model of `New(maxRunning, maxInQueue, h)` (identical in both files for
the channel allocations): no validation of the arguments is performed, the
two channels are simply allocated in order, so a negative capacity ends in
a runtime panic rather than an error value. -/
def New (maxRunning maxInQueue : Int) : Option Config := do
  let r ← goMakeChan maxRunning
  let q ← goMakeChan maxInQueue
  pure ⟨r, q⟩

/-- Count of an event in a trace. -/
def countEv (v : Ev) (t : List Ev) : Nat := t.count v

/-- Check that every permit acquisition in a trace has a matching release:
the request sends to and receives from each channel equally often. -/
def permitBalanced (t : List Ev) : Bool :=
  (countEv Ev.acqRunning t == countEv Ev.relRunning t) &&
  (countEv Ev.acqQueue t == countEv Ev.relQueue t)

/-- Check that a request acquires each permit at most once. -/
def acquiresAtMostOnce (t : List Ev) : Bool :=
  (countEv Ev.acqRunning t ≤ 1 : Bool) && (countEv Ev.acqQueue t ≤ 1 : Bool)

/-- Scan a trace keeping the running and queue permits currently held and
check that whenever the overload handler is invoked the request holds no
permit of either kind. -/
def overloadSafe (r q : Nat) : List Ev → Bool
  | [] => true
  | Ev.acqRunning :: t => overloadSafe (r + 1) q t
  | Ev.relRunning :: t => overloadSafe (r - 1) q t
  | Ev.acqQueue :: t => overloadSafe r (q + 1) t
  | Ev.relQueue :: t => overloadSafe r (q - 1) t
  | Ev.invokeOverload :: t => (r == 0 && q == 0) && overloadSafe r q t
  | _ :: t => overloadSafe r q t

/-- Scan a trace and check that the request never holds more than one
running permit nor more than one queue permit at any point. -/
def permitsAtMostOne (r q : Nat) : List Ev → Bool
  | [] => true
  | Ev.acqRunning :: t => (r + 1 ≤ 1 : Bool) && permitsAtMostOne (r + 1) q t
  | Ev.relRunning :: t => permitsAtMostOne (r - 1) q t
  | Ev.acqQueue :: t => (q + 1 ≤ 1 : Bool) && permitsAtMostOne r (q + 1) t
  | Ev.relQueue :: t => permitsAtMostOne r (q - 1) t
  | _ :: t => permitsAtMostOne r q t

/-- Scan a trace and check that the delegate handler is only ever invoked
while the request holds exactly one running permit. -/
def handlerHeld (r : Nat) : List Ev → Bool
  | [] => true
  | Ev.acqRunning :: t => handlerHeld (r + 1) t
  | Ev.relRunning :: t => handlerHeld (r - 1) t
  | Ev.invokeHandler :: t => (r == 1) && handlerHeld r t
  | _ :: t => handlerHeld r t

/-- Scan a trace and check that once the promotion from the queue has
completed (the queue permit has been released at least once), the request
never again holds a running permit and a queue permit simultaneously. -/
def noBothAfterPromotion (seen : Bool) (r q : Nat) : List Ev → Bool
  | [] => true
  | Ev.acqRunning :: t =>
      (!seen || !(0 < r + 1 && 0 < q : Bool)) && noBothAfterPromotion seen (r + 1) q t
  | Ev.relRunning :: t => noBothAfterPromotion seen (r - 1) q t
  | Ev.acqQueue :: t =>
      (!seen || !(0 < r && 0 < q + 1 : Bool)) && noBothAfterPromotion seen r (q + 1) t
  | Ev.relQueue :: t => noBothAfterPromotion true r (q - 1) t
  | _ :: t => noBothAfterPromotion seen r q t

/-- Prefix of a trace strictly before the first `stopTimer` event. -/
def beforeStop (t : List Ev) : List Ev :=
  t.takeWhile (fun x => !(x == Ev.stopTimer))

/-- Quadruple of permit-event counts of a trace, for comparing the permit
accounting of the two implementations. -/
def permitCounts (t : List Ev) : Nat × Nat × Nat × Nat :=
  (countEv Ev.acqRunning t, countEv Ev.relRunning t,
   countEv Ev.acqQueue t, countEv Ev.relQueue t)

/-- Program points of one request inside `ServeHTTP` of
`maxconnections.go`, placed between the channel operations the request
performs. The flag on `queued` records whether a deadline timer was armed
for this request (`MaxWaitInQueue > 0`), which gates the timeout case of
the select. -/
inductive PC where
  | start
  | fastHandler
  | slow
  | queued (armed : Bool)
  | promoted
  | slowHandler
  | timedOut
  | cancelled
  | done
  | rejected
  | rejTimeout
  | rejCancelled
deriving DecidableEq, Repr

/-- Whether a request at this program point currently occupies a slot in
the buffer of the `running` channel (has sent and not yet received). -/
def holdsRunning : PC → Bool
  | PC.fastHandler => true
  | PC.promoted => true
  | PC.slowHandler => true
  | _ => false

/-- Whether a request at this program point currently occupies a slot in
the buffer of the `queue` channel. -/
def holdsQueue : PC → Bool
  | PC.queued _ => true
  | PC.promoted => true
  | PC.timedOut => true
  | PC.cancelled => true
  | _ => false

/-- Whether a request at this program point has terminated (returned from
`ServeHTTP`). -/
def isDone : PC → Bool
  | PC.done => true
  | PC.rejected => true
  | PC.rejTimeout => true
  | PC.rejCancelled => true
  | _ => false

/-- Global state of one middleware instance: the buffer occupancies of the
`running` and `queue` channels, cumulative counters of running-permit
acquisitions and releases, and the program counters of all requests that
have arrived so far. -/
structure Sys where
  running : Nat
  queue : Nat
  acqR : Nat
  relR : Nat
  reqs : List PC
deriving DecidableEq, Repr

/-- State of a freshly constructed middleware instance: both channel
buffers empty, no requests. -/
def initSys : Sys := ⟨0, 0, 0, 0, []⟩

/-- Occupancy of the `running` channel implied by the request states. -/
def runningCount (l : List PC) : Nat := l.countP (fun p => holdsRunning p)

/-- Occupancy of the `queue` channel implied by the request states. -/
def queueCount (l : List PC) : Nat := l.countP (fun p => holdsQueue p)

/-- Interleaving semantics of any number of concurrent `ServeHTTP` calls of
`maxconnections.go` against one instance made by `New maxR maxQ h` (with
`armed` recording `MaxWaitInQueue > 0`). Each constructor is one atomic
channel or select operation of one request; a buffered send is enabled iff
the buffer is below capacity (no receiver ever blocks on these channels:
every receive follows a successful send by the same request), and a receive
is enabled iff the buffer is non-empty. -/
inductive Step (maxR maxQ : Nat) (armed : Bool) : Sys → Sys → Prop where
  | arrive (s : Sys) :
      Step maxR maxQ armed s ⟨s.running, s.queue, s.acqR, s.relR, PC.start :: s.reqs⟩
  | fastAcq (run q a r : Nat) (l₁ l₂ : List PC) (h : run < maxR) :
      Step maxR maxQ armed ⟨run, q, a, r, l₁ ++ PC.start :: l₂⟩
        ⟨run + 1, q, a + 1, r, l₁ ++ PC.fastHandler :: l₂⟩
  | fastFull (run q a r : Nat) (l₁ l₂ : List PC) (h : maxR ≤ run) :
      Step maxR maxQ armed ⟨run, q, a, r, l₁ ++ PC.start :: l₂⟩
        ⟨run, q, a, r, l₁ ++ PC.slow :: l₂⟩
  | finishFast (run q a r : Nat) (l₁ l₂ : List PC) (h : 1 ≤ run) :
      Step maxR maxQ armed ⟨run, q, a, r, l₁ ++ PC.fastHandler :: l₂⟩
        ⟨run - 1, q, a, r + 1, l₁ ++ PC.done :: l₂⟩
  | queueAcq (run q a r : Nat) (l₁ l₂ : List PC) (h : q < maxQ) :
      Step maxR maxQ armed ⟨run, q, a, r, l₁ ++ PC.slow :: l₂⟩
        ⟨run, q + 1, a, r, l₁ ++ PC.queued armed :: l₂⟩
  | queueFull (run q a r : Nat) (l₁ l₂ : List PC) (h : maxQ ≤ q) :
      Step maxR maxQ armed ⟨run, q, a, r, l₁ ++ PC.slow :: l₂⟩
        ⟨run, q, a, r, l₁ ++ PC.rejected :: l₂⟩
  | promote (run q a r : Nat) (b : Bool) (l₁ l₂ : List PC) (h : run < maxR) :
      Step maxR maxQ armed ⟨run, q, a, r, l₁ ++ PC.queued b :: l₂⟩
        ⟨run + 1, q, a + 1, r, l₁ ++ PC.promoted :: l₂⟩
  | promoteRel (run q a r : Nat) (l₁ l₂ : List PC) (h : 1 ≤ q) :
      Step maxR maxQ armed ⟨run, q, a, r, l₁ ++ PC.promoted :: l₂⟩
        ⟨run, q - 1, a, r, l₁ ++ PC.slowHandler :: l₂⟩
  | finishSlow (run q a r : Nat) (l₁ l₂ : List PC) (h : 1 ≤ run) :
      Step maxR maxQ armed ⟨run, q, a, r, l₁ ++ PC.slowHandler :: l₂⟩
        ⟨run - 1, q, a, r + 1, l₁ ++ PC.done :: l₂⟩
  | fireTimeout (run q a r : Nat) (l₁ l₂ : List PC) :
      Step maxR maxQ armed ⟨run, q, a, r, l₁ ++ PC.queued true :: l₂⟩
        ⟨run, q, a, r, l₁ ++ PC.timedOut :: l₂⟩
  | timeoutRel (run q a r : Nat) (l₁ l₂ : List PC) (h : 1 ≤ q) :
      Step maxR maxQ armed ⟨run, q, a, r, l₁ ++ PC.timedOut :: l₂⟩
        ⟨run, q - 1, a, r, l₁ ++ PC.rejTimeout :: l₂⟩
  | fireCancel (run q a r : Nat) (b : Bool) (l₁ l₂ : List PC) :
      Step maxR maxQ armed ⟨run, q, a, r, l₁ ++ PC.queued b :: l₂⟩
        ⟨run, q, a, r, l₁ ++ PC.cancelled :: l₂⟩
  | cancelRel (run q a r : Nat) (l₁ l₂ : List PC) (h : 1 ≤ q) :
      Step maxR maxQ armed ⟨run, q, a, r, l₁ ++ PC.cancelled :: l₂⟩
        ⟨run, q - 1, a, r, l₁ ++ PC.rejCancelled :: l₂⟩

/-- States reachable from the freshly constructed instance by any
interleaving of any number of requests. -/
def Reachable (maxR maxQ : Nat) (armed : Bool) (s : Sys) : Prop :=
  Relation.ReflTransGen (Step maxR maxQ armed) initSys s

/-- Inductive invariant of the transition system: both channel occupancies
equal the number of requests currently holding the corresponding permit,
both stay within the channel capacities, and the cumulative running-permit
acquisitions exceed the releases by exactly the current occupancy. -/
def Inv (maxR maxQ : Nat) (s : Sys) : Prop :=
  s.running = runningCount s.reqs ∧ s.queue = queueCount s.reqs ∧
  s.running ≤ maxR ∧ s.queue ≤ maxQ ∧ s.acqR = s.relR + s.running

/-- Quiescence: every request that ever arrived has returned from
`ServeHTTP`. -/
def Quiescent (s : Sys) : Prop := ∀ p ∈ s.reqs, isDone p = true

theorem inv_initSys (maxR maxQ : Nat) : Inv maxR maxQ initSys := by
  simp [Inv, initSys, runningCount, queueCount]

theorem inv_step (maxR maxQ : Nat) (armed : Bool) (s s' : Sys)
    (hs : Step maxR maxQ armed s s') (hI : Inv maxR maxQ s) :
    Inv maxR maxQ s' := by
  cases hs <;>
    simp_all [Inv, runningCount, queueCount, List.countP_append, List.countP_cons,
      holdsRunning, holdsQueue] <;>
    omega

theorem inv_reachable (maxR maxQ : Nat) (armed : Bool) (s : Sys)
    (h : Reachable maxR maxQ armed s) : Inv maxR maxQ s := by
  induction h with
  | refl => exact inv_initSys maxR maxQ
  | tail _ hstep ih => exact inv_step _ _ _ _ _ hstep ih

theorem runningCount_quiescent (s : Sys) (hq : Quiescent s) :
    runningCount s.reqs = 0 := by
  refine List.countP_eq_zero.mpr (fun p hp => ?_)
  have hd := hq p hp
  cases p <;> simp_all [isDone, holdsRunning]

theorem queueCount_quiescent (s : Sys) (hq : Quiescent s) :
    queueCount s.reqs = 0 := by
  refine List.countP_eq_zero.mpr (fun p hp => ?_)
  have hd := hq p hp
  cases p <;> simp_all [isDone, holdsQueue]

/-- C3: in every reachable state of a middleware instance constructed with
`New maxR maxQ h`, under any number of concurrent requests and any
interleaving, the occupancy of the `running` channel is at most `maxR` and
the occupancy of the `queue` channel is at most `maxQ`. -/
theorem occupancy_bounded (maxR maxQ : Nat) (armed : Bool) (s : Sys)
    (h : Reachable maxR maxQ armed s) :
    s.running ≤ maxR ∧ s.queue ≤ maxQ := by
  have hI := inv_reachable maxR maxQ armed s h
  exact ⟨hI.2.2.1, hI.2.2.2.1⟩

theorem occupancy_bounded_witness :
    (⟨1, 0, 1, 0, [PC.fastHandler]⟩ : Sys).running ≤ 2 ∧
    (⟨1, 0, 1, 0, [PC.fastHandler]⟩ : Sys).queue ≤ 3 :=
  occupancy_bounded 2 3 false _
    (Relation.ReflTransGen.tail
      (Relation.ReflTransGen.tail Relation.ReflTransGen.refl (Step.arrive initSys))
      (Step.fastAcq 0 0 0 0 [] [] (by decide)))

theorem serve_traces_balanced (maxWait : Nat) (e : Env) :
    permitBalanced (serveA maxWait e).1 = true ∧
    permitBalanced (serveB maxWait e).1 = true ∧
    acquiresAtMostOnce (serveA maxWait e).1 = true ∧
    acquiresAtMostOnce (serveB maxWait e).1 = true ∧
    (e.fastFree = false → e.queueFree = false →
      (serveA maxWait e).1 = [Ev.invokeOverload] ∧
      (serveB maxWait e).1 = [Ev.invokeOverload]) := by
  rcases e with ⟨ff, qf, race⟩
  rcases Nat.eq_zero_or_pos maxWait with hw | hw
  · subst hw
    cases ff <;> cases qf <;> cases race <;> decide
  · cases ff <;> cases qf <;> cases race <;>
      simp [serveA, serveB, enqueueRunning, permitBalanced,
        acquiresAtMostOnce, countEv, hw]

/-- C1: every permit a request acquires is released exactly once — in every
feasible environment both trace functions are permit-balanced, acquire each
permit at most once, and in the immediate-rejection short-circuit (both
non-blocking sends not ready) acquire no permit at all — and at quiescence
of the concurrent system the cumulative running-permit acquisitions equal
the cumulative releases. -/
theorem permits_released_exactly_once (maxR maxQ : Nat) (armed : Bool) (s : Sys)
    (hR : Reachable maxR maxQ armed s) (hQ : Quiescent s)
    (maxWait : Nat) (e : Env) (hf : e.feasible maxR maxQ maxWait) :
    s.acqR = s.relR ∧
    permitBalanced (serveA maxWait e).1 = true ∧
    permitBalanced (serveB maxWait e).1 = true ∧
    acquiresAtMostOnce (serveA maxWait e).1 = true ∧
    acquiresAtMostOnce (serveB maxWait e).1 = true ∧
    (e.fastFree = false → e.queueFree = false →
      (serveA maxWait e).1 = [Ev.invokeOverload] ∧
      (serveB maxWait e).1 = [Ev.invokeOverload]) := by
  obtain ⟨h1, h2, h3, h4, h5⟩ := inv_reachable maxR maxQ armed s hR
  have hz := runningCount_quiescent s hQ
  have ht := serve_traces_balanced maxWait e
  exact ⟨by omega, ht.1, ht.2.1, ht.2.2.1, ht.2.2.2.1, ht.2.2.2.2⟩

theorem permits_released_exactly_once_witness :
    initSys.acqR = initSys.relR ∧
    permitBalanced (serveA 0 ⟨false, false, RaceW.slot⟩).1 = true ∧
    permitBalanced (serveB 0 ⟨false, false, RaceW.slot⟩).1 = true ∧
    acquiresAtMostOnce (serveA 0 ⟨false, false, RaceW.slot⟩).1 = true ∧
    acquiresAtMostOnce (serveB 0 ⟨false, false, RaceW.slot⟩).1 = true ∧
    (serveA 0 ⟨false, false, RaceW.slot⟩).1 = [Ev.invokeOverload] ∧
    (serveB 0 ⟨false, false, RaceW.slot⟩).1 = [Ev.invokeOverload] := by
  have h := permits_released_exactly_once 1 0 false initSys
    Relation.ReflTransGen.refl
    (by intro p hp; exact absurd hp (List.not_mem_nil p))
    0 ⟨false, false, RaceW.slot⟩ (by decide)
  exact ⟨h.1, h.2.1, h.2.2.1, h.2.2.2.1, h.2.2.2.2.1,
    (h.2.2.2.2.2 rfl rfl).1, (h.2.2.2.2.2 rfl rfl).2⟩

/-- C4: a request that terminates rejected holds zero permits at the moment
its terminal response is produced — whenever the overload handler is
invoked, in either implementation, the request holds no running permit and
no queue permit (`overloadSafe`), and every trace ends with all permits
released (`permitBalanced`); the overload handler itself performs no pool
operation. -/
theorem rejected_holds_no_permits (maxWait : Nat) (e : Env) :
    overloadSafe 0 0 (serveA maxWait e).1 = true ∧
    overloadSafe 0 0 (serveB maxWait e).1 = true ∧
    permitBalanced (serveA maxWait e).1 = true ∧
    permitBalanced (serveB maxWait e).1 = true := by
  rcases e with ⟨ff, qf, race⟩
  rcases Nat.eq_zero_or_pos maxWait with hw | hw
  · subst hw
    cases ff <;> cases qf <;> cases race <;> decide
  · cases ff <;> cases qf <;> cases race <;>
      simp [serveA, serveB, enqueueRunning, overloadSafe, permitBalanced,
        countEv, hw]

/-- C5: a request holds at most one queue permit and at most one running
permit at any time, the delegate handler only ever runs while exactly one
running permit is held, and once the promotion out of the queue has
completed (the queue permit has been released) the request never again
holds both permits simultaneously — in either implementation. -/
theorem single_permit_discipline (maxWait : Nat) (e : Env) :
    permitsAtMostOne 0 0 (serveA maxWait e).1 = true ∧
    permitsAtMostOne 0 0 (serveB maxWait e).1 = true ∧
    handlerHeld 0 (serveA maxWait e).1 = true ∧
    handlerHeld 0 (serveB maxWait e).1 = true ∧
    noBothAfterPromotion false 0 0 (serveA maxWait e).1 = true ∧
    noBothAfterPromotion false 0 0 (serveB maxWait e).1 = true := by
  rcases e with ⟨ff, qf, race⟩
  rcases Nat.eq_zero_or_pos maxWait with hw | hw
  · subst hw
    cases ff <;> cases qf <;> cases race <;> decide
  · cases ff <;> cases qf <;> cases race <;>
      simp [serveA, serveB, enqueueRunning, permitsAtMostOne, handlerHeld,
        noBothAfterPromotion, hw]

/-- C6: with `maxInQueue = 0` the slow-path queue send is never ready, so
every request that fails the fast path terminates immediately through the
overload handler, with a trace containing no permit acquisition at all. -/
theorem zero_queue_rejects_immediately (maxR maxWait : Nat) (e : Env)
    (hf : e.feasible maxR 0 maxWait) (hff : e.fastFree = false) :
    (serveA maxWait e).1 = [Ev.invokeOverload] ∧
    (serveA maxWait e).2 = Outcome.overloaded ∧
    (serveB maxWait e).1 = [Ev.invokeOverload] ∧
    (serveB maxWait e).2 = Outcome.overloaded := by
  rcases e with ⟨ff, qf, race⟩
  obtain ⟨hf1, hf2, hf3⟩ := hf
  cases qf with
  | true => exact absurd (hf2 rfl) (Nat.lt_irrefl 0)
  | false =>
      cases ff with
      | true => exact Bool.noConfusion hff
      | false => cases race <;> simp [serveA, serveB, enqueueRunning]

theorem zero_queue_rejects_immediately_witness :
    (serveA 0 ⟨false, false, RaceW.slot⟩).1 = [Ev.invokeOverload] ∧
    (serveA 0 ⟨false, false, RaceW.slot⟩).2 = Outcome.overloaded ∧
    (serveB 0 ⟨false, false, RaceW.slot⟩).1 = [Ev.invokeOverload] ∧
    (serveB 0 ⟨false, false, RaceW.slot⟩).2 = Outcome.overloaded :=
  zero_queue_rejects_immediately 1 0 ⟨false, false, RaceW.slot⟩ (by decide) rfl

/-- C7: with `MaxWaitInQueue = 0` no timer is ever armed, the timeout event
of the three-way select cannot fire (the select reads from a channel that
never delivers), and consequently a queued wait ends only through slot
availability or cancellation. -/
theorem zero_wait_no_deadline (maxR maxQ : Nat) (e : Env)
    (hf : e.feasible maxR maxQ 0) :
    e.race ≠ RaceW.timeout ∧
    Ev.armTimer ∉ (serveA 0 e).1 ∧ Ev.timerFire ∉ (serveA 0 e).1 ∧
    Ev.armTimer ∉ (serveB 0 e).1 ∧ Ev.timerFire ∉ (serveB 0 e).1 := by
  rcases e with ⟨ff, qf, race⟩
  obtain ⟨hf1, hf2, hf3⟩ := hf
  cases race with
  | timeout => exact absurd (hf3 rfl) (Nat.lt_irrefl 0)
  | slot => cases ff <;> cases qf <;> decide
  | cancel => cases ff <;> cases qf <;> decide

theorem zero_wait_no_deadline_witness :
    (⟨false, true, RaceW.cancel⟩ : Env).race ≠ RaceW.timeout ∧
    Ev.armTimer ∉ (serveA 0 ⟨false, true, RaceW.cancel⟩).1 ∧
    Ev.timerFire ∉ (serveA 0 ⟨false, true, RaceW.cancel⟩).1 ∧
    Ev.armTimer ∉ (serveB 0 ⟨false, true, RaceW.cancel⟩).1 ∧
    Ev.timerFire ∉ (serveB 0 ⟨false, true, RaceW.cancel⟩).1 :=
  zero_wait_no_deadline 1 1 ⟨false, true, RaceW.cancel⟩ (by decide)

/-- C8: for a queued request with an armed timer, on both non-timeout
outcomes of the three-way select (promotion and cancellation) the timer is
stopped before the request continues past the race: no handler invocation
and no overload invocation precedes the `stopTimer` event, in either
implementation. -/
theorem timer_stopped_on_non_timeout (maxWait : Nat) (e : Env)
    (hw : 0 < maxWait) (hff : e.fastFree = false) (hqf : e.queueFree = true)
    (hrace : e.race ≠ RaceW.timeout) :
    (Ev.armTimer ∈ (serveA maxWait e).1 ∧
     Ev.stopTimer ∈ (serveA maxWait e).1 ∧
     (beforeStop (serveA maxWait e).1).count Ev.invokeHandler = 0 ∧
     (beforeStop (serveA maxWait e).1).count Ev.invokeOverload = 0) ∧
    (Ev.armTimer ∈ (serveB maxWait e).1 ∧
     Ev.stopTimer ∈ (serveB maxWait e).1 ∧
     (beforeStop (serveB maxWait e).1).count Ev.invokeHandler = 0 ∧
     (beforeStop (serveB maxWait e).1).count Ev.invokeOverload = 0) := by
  rcases e with ⟨ff, qf, race⟩
  cases ff with
  | true => exact Bool.noConfusion hff
  | false =>
      cases qf with
      | false => exact Bool.noConfusion hqf
      | true =>
          cases race with
          | timeout => exact absurd rfl hrace
          | slot =>
              simp [serveA, serveB, enqueueRunning, beforeStop, hw]
          | cancel =>
              simp [serveA, serveB, enqueueRunning, beforeStop, hw]

theorem timer_stopped_on_non_timeout_witness :
    (Ev.armTimer ∈ (serveA 1 ⟨false, true, RaceW.slot⟩).1 ∧
     Ev.stopTimer ∈ (serveA 1 ⟨false, true, RaceW.slot⟩).1 ∧
     (beforeStop (serveA 1 ⟨false, true, RaceW.slot⟩).1).count Ev.invokeHandler = 0 ∧
     (beforeStop (serveA 1 ⟨false, true, RaceW.slot⟩).1).count Ev.invokeOverload = 0) ∧
    (Ev.armTimer ∈ (serveB 1 ⟨false, true, RaceW.slot⟩).1 ∧
     Ev.stopTimer ∈ (serveB 1 ⟨false, true, RaceW.slot⟩).1 ∧
     (beforeStop (serveB 1 ⟨false, true, RaceW.slot⟩).1).count Ev.invokeHandler = 0 ∧
     (beforeStop (serveB 1 ⟨false, true, RaceW.slot⟩).1).count Ev.invokeOverload = 0) :=
  timer_stopped_on_non_timeout 1 ⟨false, true, RaceW.slot⟩ (by decide) rfl rfl
    (by decide)

theorem cancelled_queue_overload_invoked :
    Env.feasible 1 1 0 ⟨false, true, RaceW.cancel⟩ ∧
    Ev.invokeOverload ∈ (serveB 0 ⟨false, true, RaceW.cancel⟩).1 ∧
    (serveB 0 ⟨false, true, RaceW.cancel⟩).2 = Outcome.overloaded := by
  decide

/-- C2 (amended): for a queued request whose cancellation signal wins the
race, `maxconnections.go` releases the queue permit, stops the timer if
armed, does not invoke the overload handler and produces no response; the
variant implementation likewise releases the queue permit and stops the
timer, but its `ServeHTTP` then invokes the overload handler on the false
return of `enqueueRunning`. -/
theorem cancelled_queue_no_response (maxWait : Nat) (e : Env)
    (hff : e.fastFree = false) (hqf : e.queueFree = true)
    (hrace : e.race = RaceW.cancel) :
    ((serveA maxWait e).2 = Outcome.noResponse ∧
     Ev.invokeOverload ∉ (serveA maxWait e).1 ∧
     countEv Ev.acqQueue (serveA maxWait e).1 = 1 ∧
     countEv Ev.relQueue (serveA maxWait e).1 = 1 ∧
     (0 < maxWait → Ev.stopTimer ∈ (serveA maxWait e).1)) ∧
    ((serveB maxWait e).2 = Outcome.overloaded ∧
     Ev.invokeOverload ∈ (serveB maxWait e).1 ∧
     permitBalanced (serveB maxWait e).1 = true ∧
     (0 < maxWait → Ev.stopTimer ∈ (serveB maxWait e).1)) := by
  rcases e with ⟨ff, qf, race⟩
  cases ff with
  | true => exact Bool.noConfusion hff
  | false =>
      cases qf with
      | false => exact Bool.noConfusion hqf
      | true =>
          cases race with
          | slot => exact RaceW.noConfusion hrace
          | timeout => exact RaceW.noConfusion hrace
          | cancel =>
              rcases Nat.eq_zero_or_pos maxWait with hw | hw
              · subst hw; decide
              · simp [serveA, serveB, enqueueRunning, permitBalanced,
                  countEv, hw]

theorem cancelled_queue_no_response_witness :
    (serveA 1 ⟨false, true, RaceW.cancel⟩).2 = Outcome.noResponse ∧
    Ev.invokeOverload ∉ (serveA 1 ⟨false, true, RaceW.cancel⟩).1 ∧
    countEv Ev.acqQueue (serveA 1 ⟨false, true, RaceW.cancel⟩).1 = 1 ∧
    countEv Ev.relQueue (serveA 1 ⟨false, true, RaceW.cancel⟩).1 = 1 ∧
    Ev.stopTimer ∈ (serveA 1 ⟨false, true, RaceW.cancel⟩).1 ∧
    (serveB 1 ⟨false, true, RaceW.cancel⟩).2 = Outcome.overloaded ∧
    Ev.invokeOverload ∈ (serveB 1 ⟨false, true, RaceW.cancel⟩).1 ∧
    permitBalanced (serveB 1 ⟨false, true, RaceW.cancel⟩).1 = true ∧
    Ev.stopTimer ∈ (serveB 1 ⟨false, true, RaceW.cancel⟩).1 := by
  have h := cancelled_queue_no_response 1 ⟨false, true, RaceW.cancel⟩ rfl rfl rfl
  exact ⟨h.1.1, h.1.2.1, h.1.2.2.1, h.1.2.2.2.1, h.1.2.2.2.2 (by decide),
    h.2.1, h.2.2.1, h.2.2.2.1, h.2.2.2.2 (by decide)⟩

theorem implementations_differ_on_cancel :
    Env.feasible 1 1 0 ⟨false, true, RaceW.cancel⟩ ∧
    (serveA 0 ⟨false, true, RaceW.cancel⟩).2 ≠
      (serveB 0 ⟨false, true, RaceW.cancel⟩).2 := by
  decide

/-- C9 (amended): the two implementations have identical permit accounting
on every request, and produce the same outcome on every resolution except
queued cancellation, where `maxconnections.go` produces no response while
the variant invokes the overload handler. -/
theorem implementations_equivalent_except_cancel (maxWait : Nat) (e : Env) :
    permitCounts (serveA maxWait e).1 = permitCounts (serveB maxWait e).1 ∧
    (e.fastFree = true ∨ e.queueFree = false ∨ e.race ≠ RaceW.cancel →
      (serveA maxWait e).2 = (serveB maxWait e).2) ∧
    (e.fastFree = false → e.queueFree = true → e.race = RaceW.cancel →
      (serveA maxWait e).2 = Outcome.noResponse ∧
      (serveB maxWait e).2 = Outcome.overloaded) := by
  rcases e with ⟨ff, qf, race⟩
  rcases Nat.eq_zero_or_pos maxWait with hw | hw
  · subst hw
    cases ff <;> cases qf <;> cases race <;> decide
  · cases ff <;> cases qf <;> cases race <;>
      simp [serveA, serveB, enqueueRunning, permitCounts, countEv, hw]

theorem implementations_equivalent_except_cancel_witness :
    permitCounts (serveA 0 ⟨false, true, RaceW.cancel⟩).1 =
      permitCounts (serveB 0 ⟨false, true, RaceW.cancel⟩).1 ∧
    (serveA 0 ⟨true, true, RaceW.slot⟩).2 =
      (serveB 0 ⟨true, true, RaceW.slot⟩).2 ∧
    (serveA 0 ⟨false, true, RaceW.cancel⟩).2 = Outcome.noResponse ∧
    (serveB 0 ⟨false, true, RaceW.cancel⟩).2 = Outcome.overloaded := by
  have h1 := implementations_equivalent_except_cancel 0 ⟨false, true, RaceW.cancel⟩
  have h2 := implementations_equivalent_except_cancel 0 ⟨true, true, RaceW.slot⟩
  exact ⟨h1.1, h2.2.1 (Or.inl rfl), (h1.2.2 rfl rfl rfl).1, (h1.2.2 rfl rfl rfl).2⟩

/-- C10: `New` validates nothing — with a negative `maxRunning` or a
negative `maxInQueue` the channel allocation panics at runtime (no instance
and no error value is returned), and with non-negative arguments an
instance is always returned, whatever the values. -/
theorem new_negative_capacity_panics (mr mq : Int) :
    (mr < 0 ∨ mq < 0 → New mr mq = none) ∧
    (0 ≤ mr → 0 ≤ mq → New mr mq = some ⟨mr.toNat, mq.toNat⟩) := by
  constructor
  · intro h
    rcases h with h | h
    · simp [New, goMakeChan, h]
    · by_cases hm : mr < 0 <;> simp [New, goMakeChan, h, hm]
  · intro h1 h2
    simp [New, goMakeChan, not_lt.mpr h1, not_lt.mpr h2]

theorem new_negative_capacity_panics_witness :
    New (-1) 2 = none ∧ New 3 4 = some ⟨3, 4⟩ :=
  ⟨(new_negative_capacity_panics (-1) 2).1 (Or.inl (by decide)),
   (new_negative_capacity_panics 3 4).2 (by decide) (by decide)⟩

